import Mathlib

/-!
Verification development for the Foga training pipeline
(`src/training/train_facial_analysis_model.py`).

The Python script is embedded shallowly:
* the stratified demographic train/validation splitter
  (`stratified_train_test_split`, lines 199-232);
* the three-way inner merge performed in `FacialAnalysisDataset.__init__`
  (lines 296-301);
* the per-row feature encoding of `FacialAnalysisDataset.__getitem__`
  (lines 341-404) together with `_encode_categorical` (lines 315-336);
* `load_data` (lines 407-436) and the early-return branch of `main`
  (lines 652-667);
* the epoch loop of `train_model` (lines 443-572), abstracted over the
  numeric behaviour of the underlying ML framework: each batch is
  summarised by the scalar contributions the loop actually reads from it
  (total loss, per-sample absolute angle errors, correct count, sample
  count).

Machine floats are modelled by `ℚ`; Python `float` division and Python
integer `/` raise `ZeroDivisionError` on a zero denominator, which is
modelled by `Except`.  The external `sklearn.train_test_split`
collaborator shuffles the input with a RNG seeded by `random_state` and
splits off `ceil(n * test_size)` elements as the test part; the shuffle
is modelled by an explicit deterministic seeded permutation.
-/

namespace Foga

/-! ### A deterministic seeded shuffle (model of sklearn's seeded RNG permutation)

`sklearn.model_selection.train_test_split` permutes the input with a RNG
constructed from `random_state` and returns
`(perm.drop n_test, perm.take n_test)` where `n_test = ceil(n * test_size)`.
The exact Mersenne-Twister permutation is an external collaborator; it is
modelled by a concrete deterministic permutation driven by a linear
congruential generator.  All claims depend only on it being a deterministic
permutation of its input. -/

def lcgNext (s : Nat) : Nat := (1103515245 * s + 12345) % 2147483648

def shuffleFuel {α : Type} : Nat → Nat → List α → List α
  | 0, _, xs => xs
  | fuel + 1, s, xs =>
    if h : xs.length ≤ 1 then xs
    else
      xs.get ⟨s % xs.length, Nat.mod_lt s (by omega)⟩ ::
        shuffleFuel fuel (lcgNext s) (xs.eraseIdx (s % xs.length))

def sklearnShuffle {α : Type} (seed : Nat) (xs : List α) : List α :=
  shuffleFuel xs.length seed xs

theorem get_cons_eraseIdx_perm {α : Type} (xs : List α) (i : Fin xs.length) :
    List.Perm (xs.get i :: xs.eraseIdx i.1) xs := by
  have h2 : xs.get i :: xs.drop (i.1 + 1) = xs.drop i.1 := by
    rw [List.get_eq_getElem]
    exact List.getElem_cons_drop xs i.1 i.2
  rw [List.eraseIdx_eq_take_drop_succ]
  have h3 : List.Perm (xs.get i :: (xs.take i.1 ++ xs.drop (i.1 + 1)))
      (xs.take i.1 ++ (xs.get i :: xs.drop (i.1 + 1))) := List.perm_middle.symm
  rw [h2, List.take_append_drop] at h3
  exact h3

theorem shuffleFuel_perm {α : Type} :
    ∀ (fuel s : Nat) (xs : List α), List.Perm (shuffleFuel fuel s xs) xs
  | 0, _, xs => List.Perm.refl xs
  | fuel + 1, s, xs => by
    rw [shuffleFuel]
    split
    · exact List.Perm.refl xs
    · exact ((shuffleFuel_perm fuel (lcgNext s) _).cons _).trans
        (get_cons_eraseIdx_perm xs ⟨s % xs.length, Nat.mod_lt s (by omega)⟩)

theorem sklearnShuffle_perm {α : Type} (seed : Nat) (xs : List α) :
    List.Perm (sklearnShuffle seed xs) xs :=
  shuffleFuel_perm xs.length seed xs

/-! ### The stratified splitter (source lines 199-232)

A dataframe together with the selected demographic columns is modelled as
the list of per-row demographic keys: row `i` of the merged dataframe has
key `data[i]` (for the call in `main`,
`K = ethnicity × gender × skin_tone`, taken from the raw columns, source
line 681).  A key is an `Option K`: `none` models a row whose
ethnicity/gender/skin_tone cell is missing (NaN after `pd.read_csv`).
`data.groupby(demographics)` drops NaN-keyed rows from every group
(pandas `dropna=True`), and yields, for each distinct non-null key, the
(increasing) list of row positions carrying that key;
`group_df.index.tolist()` is exactly that list because the merged
dataframe was `reset_index(drop=True)` (source line 301). -/

def groupIndices {K : Type} [DecidableEq K] (data : List (Option K)) (κ : K) : List Nat :=
  (List.range data.length).filter fun i => decide (data[i]? = some (some κ))

/-- The distinct non-null keys, i.e. the groups `data.groupby(...)`
iterates over (NaN keys form no group). -/
def presentKeys {K : Type} [DecidableEq K] (data : List (Option K)) : List K :=
  (data.filterMap id).dedup

/-- Model of `sklearn.model_selection.train_test_split(xs, test_size, random_state)`:
`n_test = ceil(len * test_size)` elements of the shuffled input form the
test part, the rest the train part; the result is `(train, test)`. -/
def train_test_split (xs : List Nat) (test_size : ℚ) (random_state : Nat) :
    List Nat × List Nat :=
  ((sklearnShuffle random_state xs).drop (⌈(xs.length : ℚ) * test_size⌉).toNat,
   (sklearnShuffle random_state xs).take (⌈(xs.length : ℚ) * test_size⌉).toNat)

/-- One iteration of the group loop (source lines 218-230): a group with
fewer than 2 members goes entirely to training, otherwise it is split by
`train_test_split` with the hard-coded `random_state=42`. -/
def groupSplit {K : Type} [DecidableEq K] (data : List (Option K)) (test_size : ℚ)
    (κ : K) : List Nat × List Nat :=
  if (groupIndices data κ).length < 2 then (groupIndices data κ, [])
  else train_test_split (groupIndices data κ) test_size 42

/-- `stratified_train_test_split` (source lines 199-232): iterate over the
demographic groups formed by `groupby` (the distinct non-null keys),
extending the running train / validation index lists. -/
def stratified_train_test_split {K : Type} [DecidableEq K]
    (data : List (Option K)) (test_size : ℚ) : List Nat × List Nat :=
  (presentKeys data).foldl
    (fun acc κ =>
      (acc.1 ++ (groupSplit data test_size κ).1, acc.2 ++ (groupSplit data test_size κ).2))
    ([], [])

theorem foldl_append_pair {β : Type} (f : β → List Nat × List Nat) :
    ∀ (l : List β) (acc : List Nat × List Nat),
      l.foldl (fun acc κ => (acc.1 ++ (f κ).1, acc.2 ++ (f κ).2)) acc
        = (acc.1 ++ (l.map fun κ => (f κ).1).flatten,
           acc.2 ++ (l.map fun κ => (f κ).2).flatten)
  | [], acc => by simp
  | b :: l, acc => by
    simp [foldl_append_pair f l, List.append_assoc]

theorem stratified_fst {K : Type} [DecidableEq K] (data : List (Option K)) (t : ℚ) :
    (stratified_train_test_split data t).1
      = ((presentKeys data).map fun κ => (groupSplit data t κ).1).flatten := by
  rw [stratified_train_test_split, foldl_append_pair (groupSplit data t)]
  simp

theorem stratified_snd {K : Type} [DecidableEq K] (data : List (Option K)) (t : ℚ) :
    (stratified_train_test_split data t).2
      = ((presentKeys data).map fun κ => (groupSplit data t κ).2).flatten := by
  rw [stratified_train_test_split, foldl_append_pair (groupSplit data t)]
  simp

theorem mem_groupIndices {K : Type} [DecidableEq K] {data : List (Option K)} {κ : K}
    {i : Nat} :
    i ∈ groupIndices data κ ↔ i < data.length ∧ data[i]? = some (some κ) := by
  simp [groupIndices, List.mem_filter, List.mem_range]

theorem groupIndices_nodup {K : Type} [DecidableEq K] (data : List (Option K)) (κ : K) :
    (groupIndices data κ).Nodup :=
  (List.nodup_range data.length).filter _

theorem groupSplit_append_perm {K : Type} [DecidableEq K]
    (data : List (Option K)) (t : ℚ) (κ : K) :
    List.Perm ((groupSplit data t κ).1 ++ (groupSplit data t κ).2)
      (groupIndices data κ) := by
  rw [groupSplit]
  split
  · simp
  · rw [train_test_split]
    refine List.perm_append_comm.trans ?_
    rw [List.take_append_drop]
    exact sklearnShuffle_perm 42 _

theorem nTest_pos (n : Nat) (h : 2 ≤ n) : 1 ≤ (⌈(n : ℚ) * (1 / 5)⌉).toNat := by
  have h2 : (2 : ℚ) ≤ (n : ℚ) := by exact_mod_cast h
  have hc : 0 < ⌈(n : ℚ) * (1 / 5)⌉ := Int.lt_ceil.mpr (by push_cast; linarith)
  omega

theorem nTest_lt (n : Nat) (h : 2 ≤ n) : (⌈(n : ℚ) * (1 / 5)⌉).toNat < n := by
  have h2 : (2 : ℚ) ≤ (n : ℚ) := by exact_mod_cast h
  have hc : ⌈(n : ℚ) * (1 / 5)⌉ ≤ (n : ℤ) - 1 := by
    apply Int.ceil_le.mpr
    push_cast
    linarith
  omega

theorem groupSplit_parts_ne_nil {K : Type} [DecidableEq K] (data : List (Option K))
    (κ : K) (h : 2 ≤ (groupIndices data κ).length) :
    (groupSplit data (1 / 5) κ).1 ≠ [] ∧ (groupSplit data (1 / 5) κ).2 ≠ [] := by
  rw [groupSplit, if_neg (by omega)]
  rw [train_test_split]
  have hlen : (sklearnShuffle 42 (groupIndices data κ)).length
      = (groupIndices data κ).length := (sklearnShuffle_perm 42 _).length_eq
  constructor
  · rw [← List.length_pos, List.length_drop, hlen]
    have := nTest_lt (groupIndices data κ).length h
    omega
  · rw [← List.length_pos, List.length_take, hlen]
    have h1 := nTest_pos (groupIndices data κ).length h
    omega

theorem mem_stratified_fst {K : Type} [DecidableEq K] {data : List (Option K)} {t : ℚ}
    {i : Nat} :
    i ∈ (stratified_train_test_split data t).1 ↔
      ∃ κ ∈ presentKeys data, i ∈ (groupSplit data t κ).1 := by
  rw [stratified_fst]
  simp

theorem mem_stratified_snd {K : Type} [DecidableEq K] {data : List (Option K)} {t : ℚ}
    {i : Nat} :
    i ∈ (stratified_train_test_split data t).2 ↔
      ∃ κ ∈ presentKeys data, i ∈ (groupSplit data t κ).2 := by
  rw [stratified_snd]
  simp

theorem groupSplit_fst_subset {K : Type} [DecidableEq K] {data : List (Option K)}
    {t : ℚ} {κ : K} {i : Nat} (h : i ∈ (groupSplit data t κ).1) :
    i ∈ groupIndices data κ :=
  (groupSplit_append_perm data t κ).subset (List.mem_append_left _ h)

theorem groupSplit_snd_subset {K : Type} [DecidableEq K] {data : List (Option K)}
    {t : ℚ} {κ : K} {i : Nat} (h : i ∈ (groupSplit data t κ).2) :
    i ∈ groupIndices data κ :=
  (groupSplit_append_perm data t κ).subset (List.mem_append_right _ h)

theorem groupIndices_key_unique {K : Type} [DecidableEq K] {data : List (Option K)}
    {κ κ₂ : K} {i : Nat} (h1 : i ∈ groupIndices data κ)
    (h2 : i ∈ groupIndices data κ₂) : κ = κ₂ := by
  have e1 := (mem_groupIndices.mp h1).2
  have e2 := (mem_groupIndices.mp h2).2
  rw [e1] at e2
  exact Option.some.inj (Option.some.inj e2)

theorem exists_key {K : Type} [DecidableEq K] {data : List (Option K)} {i : Nat} {κ : K}
    (h : data[i]? = some (some κ)) :
    κ ∈ presentKeys data ∧ i ∈ groupIndices data κ := by
  have hlt : i < data.length := by
    have := List.getElem?_eq_some.mp h
    exact this.1
  constructor
  · exact List.mem_dedup.mpr
      (List.mem_filterMap.mpr ⟨some κ, List.getElem?_mem h, rfl⟩)
  · exact mem_groupIndices.mpr ⟨hlt, h⟩

theorem groupIndices_key_mem_present {K : Type} [DecidableEq K] {data : List (Option K)}
    {κ : K} {i : Nat} (h : i ∈ groupIndices data κ) : κ ∈ presentKeys data :=
  (exists_key (mem_groupIndices.mp h).2).1

theorem groupSplit_parts_disjoint {K : Type} [DecidableEq K] (data : List (Option K))
    (t : ℚ) (κ : K) : List.Disjoint (groupSplit data t κ).1 (groupSplit data t κ).2 := by
  have hnd : ((groupSplit data t κ).1 ++ (groupSplit data t κ).2).Nodup :=
    (groupSplit_append_perm data t κ).symm.nodup (groupIndices_nodup data κ)
  exact (List.nodup_append.mp hnd).2.2

/-- C1 (amended): for every input dataframe (modelled as the list of
per-row demographic keys of the merged dataframe, `none` for a row whose
key contains a missing value) and every demographic group with at least 2
merged samples, the train and validation index lists returned by
`stratified_train_test_split` (at the configured `test_size = 0.2`) each
contain at least one index of that group, and the two returned index sets
are disjoint; their union is exactly the set of row indices whose
demographic key is non-null — pandas `groupby` silently drops NaN-keyed
rows, so a row with a missing demographic cell lands in neither partition.
In particular, on a merged input with no missing demographic cell (which
the claim's unrestricted wording presumes) the union is the set of all row
indices. -/
theorem stratified_split_spec {K : Type} [DecidableEq K] (data : List (Option K)) :
    (∀ κ : K, 2 ≤ (groupIndices data κ).length →
        (∃ i ∈ (stratified_train_test_split data (1 / 5)).1,
            data[i]? = some (some κ)) ∧
        (∃ j ∈ (stratified_train_test_split data (1 / 5)).2,
            data[j]? = some (some κ))) ∧
    (∀ i : Nat, ¬ (i ∈ (stratified_train_test_split data (1 / 5)).1 ∧
        i ∈ (stratified_train_test_split data (1 / 5)).2)) ∧
    (∀ i : Nat, (i ∈ (stratified_train_test_split data (1 / 5)).1 ∨
        i ∈ (stratified_train_test_split data (1 / 5)).2) ↔
      ∃ κ : K, data[i]? = some (some κ)) ∧
    ((∀ x ∈ data, x ≠ none) →
      ∀ i : Nat, (i ∈ (stratified_train_test_split data (1 / 5)).1 ∨
        i ∈ (stratified_train_test_split data (1 / 5)).2) ↔ i < data.length) := by
  have hunion : ∀ i : Nat,
      (i ∈ (stratified_train_test_split data (1 / 5)).1 ∨
        i ∈ (stratified_train_test_split data (1 / 5)).2) ↔
      ∃ κ : K, data[i]? = some (some κ) := by
    intro i
    constructor
    · rintro (h | h)
      · obtain ⟨κ, -, hp⟩ := mem_stratified_fst.mp h
        exact ⟨κ, (mem_groupIndices.mp (groupSplit_fst_subset hp)).2⟩
      · obtain ⟨κ, -, hp⟩ := mem_stratified_snd.mp h
        exact ⟨κ, (mem_groupIndices.mp (groupSplit_snd_subset hp)).2⟩
    · rintro ⟨κ, hk⟩
      obtain ⟨hpres, hg⟩ := exists_key hk
      have hmem : i ∈ (groupSplit data (1 / 5) κ).1 ++ (groupSplit data (1 / 5) κ).2 :=
        (groupSplit_append_perm data (1 / 5) κ).symm.subset hg
      rcases List.mem_append.mp hmem with hp | hp
      · exact Or.inl (mem_stratified_fst.mpr ⟨κ, hpres, hp⟩)
      · exact Or.inr (mem_stratified_snd.mpr ⟨κ, hpres, hp⟩)
  refine ⟨?_, ?_, hunion, ?_⟩
  · intro κ hκ
    have hne := groupSplit_parts_ne_nil data κ hκ
    obtain ⟨i₀, hi₀⟩ := List.exists_mem_of_ne_nil _ hne.1
    obtain ⟨j₀, hj₀⟩ := List.exists_mem_of_ne_nil _ hne.2
    have hpres : κ ∈ presentKeys data :=
      groupIndices_key_mem_present (groupSplit_fst_subset hi₀)
    constructor
    · exact ⟨i₀, mem_stratified_fst.mpr ⟨κ, hpres, hi₀⟩,
        (mem_groupIndices.mp (groupSplit_fst_subset hi₀)).2⟩
    · exact ⟨j₀, mem_stratified_snd.mpr ⟨κ, hpres, hj₀⟩,
        (mem_groupIndices.mp (groupSplit_snd_subset hj₀)).2⟩
  · rintro i ⟨h1, h2⟩
    obtain ⟨κ₁, -, hp1⟩ := mem_stratified_fst.mp h1
    obtain ⟨κ₂, -, hp2⟩ := mem_stratified_snd.mp h2
    have hkey : κ₁ = κ₂ :=
      groupIndices_key_unique (groupSplit_fst_subset hp1) (groupSplit_snd_subset hp2)
    subst hkey
    exact groupSplit_parts_disjoint data (1 / 5) κ₁ hp1 hp2
  · intro hnn i
    rw [hunion i]
    constructor
    · rintro ⟨κ, hk⟩
      exact (List.getElem?_eq_some.mp hk).1
    · intro hlt
      have hget : data[i]? = some (data.get ⟨i, hlt⟩) := by
        rw [List.getElem?_eq_getElem hlt, List.get_eq_getElem]
      obtain ⟨κ, hκ⟩ := Option.ne_none_iff_exists.mp (hnn _ (data.get_mem i hlt))
      exact ⟨κ, by rw [hget, ← hκ]⟩

/-- Witness for C1 (amended): on the two-row dataframe whose rows share
one (non-null) demographic key, the validation list contains an index of
that group. -/
theorem stratified_split_spec_witness :
    ∃ j ∈ (stratified_train_test_split [some 0, some 0] (1 / 5)).2,
      [some 0, some 0][j]? = some (some 0) :=
  ((stratified_split_spec [some 0, some 0]).1 0 (by decide)).2

/-- C1 counterexample: on the one-row merged dataframe whose demographic
key contains a missing value (NaN in one of the raw ethnicity / gender /
skin_tone columns), pandas `groupby` drops the row from every group, so
it is placed in neither partition: the union of the two returned index
sets is empty and does not equal the set of all row indices of the merged
input, refuting the claim's union conjunct as stated. -/
theorem stratified_split_union_counterexample :
    ¬ ((0 ∈ (stratified_train_test_split [(none : Option Nat)] (1 / 5)).1 ∨
        0 ∈ (stratified_train_test_split [(none : Option Nat)] (1 / 5)).2) ↔
       0 < [(none : Option Nat)].length) := by
  decide

/-- C4: every demographic group with fewer than 2 members has all of its
row indices assigned to the training index list and none to the validation
index list, for any `test_size`. -/
theorem singleton_group_to_train {K : Type} [DecidableEq K] (data : List (Option K))
    (t : ℚ) (κ : K) (h : (groupIndices data κ).length < 2) :
    (∀ i ∈ groupIndices data κ, i ∈ (stratified_train_test_split data t).1) ∧
    (∀ i ∈ groupIndices data κ, i ∉ (stratified_train_test_split data t).2) := by
  constructor
  · intro i hi
    refine mem_stratified_fst.mpr ⟨κ, groupIndices_key_mem_present hi, ?_⟩
    rw [groupSplit, if_pos h]
    exact hi
  · intro i hi hcontra
    obtain ⟨κ₂, -, hp2⟩ := mem_stratified_snd.mp hcontra
    have hkey : κ = κ₂ := groupIndices_key_unique hi (groupSplit_snd_subset hp2)
    subst hkey
    rw [groupSplit, if_pos h] at hp2
    exact (List.not_mem_nil i) hp2

/-- Witness for C4: in the dataframe with keys `[0, 0, 1]`, the singleton
group `1` has its only row index `2` placed in the training list. -/
theorem singleton_group_to_train_witness :
    2 ∈ (stratified_train_test_split [some 0, some 0, some 1] (1 / 5)).1 :=
  (singleton_group_to_train [some 0, some 0, some 1] (1 / 5) 1 (by decide)).1 2 (by decide)

/-- C5: `stratified_train_test_split` is deterministic — two invocations
with the same merged dataframe (same per-row demographic keys, i.e. the
same dataframe keyed by the same demographic column list) and the same
`test_size` return identical train/validation partitions; the random seed
is hard-coded to `42` inside the function, so it is the same for every
invocation. -/
theorem stratified_split_deterministic {K : Type} [DecidableEq K]
    (d1 d2 : List (Option K)) (t1 t2 : ℚ) (hd : d1 = d2) (ht : t1 = t2) :
    stratified_train_test_split d1 t1 = stratified_train_test_split d2 t2 := by
  rw [hd, ht]

/-- Witness for C5: two invocations on the concrete dataframe with keys
`[0, 1]` agree. -/
theorem stratified_split_deterministic_witness :
    stratified_train_test_split [some 0, some 1] (1 / 5)
      = stratified_train_test_split [some 0, some 1] (1 / 5) :=
  stratified_split_deterministic [some 0, some 1] [some 0, some 1] (1 / 5) (1 / 5) rfl rfl

/-! ### The Dataset Merger (source lines 296-301)

A tabular source is modelled as a list of rows, each row a pair of the
`image_id` key and the remaining payload of the row.
`df1.merge(df2, on=..., how=..)` with an inner join emits, for each row of
the left table and each row of the right table whose keys agree, one
combined row (pandas multiplies duplicated keys exactly like this nested
loop does). -/

def innerJoin {α β : Type} (xs : List (Nat × α)) (ys : List (Nat × β)) :
    List (Nat × α × β) :=
  xs.flatMap fun x => (ys.filter fun y => decide (y.1 = x.1)).map fun y => (x.1, x.2, y.2)

/-- The two successive inner merges of `FacialAnalysisDataset.__init__`
(source lines 297-298): metadata ⋈ arkit ⋈ labels on `image_id`. -/
def mergeDatasets {α β γ : Type} (metadata_df : List (Nat × α)) (arkit_df : List (Nat × β))
    (labels_df : List (Nat × γ)) : List (Nat × (α × β) × γ) :=
  innerJoin (innerJoin metadata_df arkit_df) labels_df

/-- The list of sample identifiers of a table. -/
def tableIds {α : Type} (t : List (Nat × α)) : List Nat := t.map Prod.fst

theorem mem_tableIds_innerJoin {α β : Type} {xs : List (Nat × α)} {ys : List (Nat × β)}
    {k : Nat} :
    k ∈ tableIds (innerJoin xs ys) ↔ k ∈ tableIds xs ∧ k ∈ tableIds ys := by
  constructor
  · intro h
    obtain ⟨r, hr, hid⟩ := List.mem_map.mp h
    obtain ⟨x, hx, hr2⟩ := List.mem_flatMap.mp hr
    obtain ⟨y, hy, hr3⟩ := List.mem_map.mp hr2
    obtain ⟨hy2, hyx⟩ := List.mem_filter.mp hy
    have hyx2 : y.1 = x.1 := of_decide_eq_true hyx
    subst hr3
    simp only at hid
    subst hid
    exact ⟨List.mem_map.mpr ⟨x, hx, rfl⟩, List.mem_map.mpr ⟨y, hy2, hyx2⟩⟩
  · rintro ⟨h1, h2⟩
    obtain ⟨x, hx, hx1⟩ := List.mem_map.mp h1
    obtain ⟨y, hy, hy1⟩ := List.mem_map.mp h2
    refine List.mem_map.mpr ⟨(x.1, x.2, y.2), ?_, hx1⟩
    refine List.mem_flatMap.mpr ⟨x, hx, ?_⟩
    exact List.mem_map.mpr ⟨y, List.mem_filter.mpr ⟨hy, by simp [hy1, hx1]⟩, rfl⟩

theorem filter_key_length_le_one {β : Type} {ys : List (Nat × β)}
    (h : (tableIds ys).Nodup) (k : Nat) :
    (ys.filter fun y => decide (y.1 = k)).length ≤ 1 := by
  induction ys with
  | nil => simp
  | cons y ys ih =>
    rw [tableIds, List.map_cons, List.nodup_cons] at h
    by_cases hk : y.1 = k
    · rw [List.filter_cons_of_pos (by simp [hk])]
      have hrest : ys.filter (fun y2 => decide (y2.1 = k)) = [] := by
        rw [List.filter_eq_nil_iff]
        intro y2 hy2
        simp only [decide_eq_true_eq]
        intro hc
        exact h.1 (List.mem_map.mpr ⟨y2, hy2, by rw [hc, hk]⟩)
      simp [hrest]
    · rw [List.filter_cons_of_neg (by simp [hk])]
      exact ih h.2

theorem tableIds_innerJoin_sublist {α β : Type} (xs : List (Nat × α))
    {ys : List (Nat × β)} (h : (tableIds ys).Nodup) :
    (tableIds (innerJoin xs ys)).Sublist (tableIds xs) := by
  induction xs with
  | nil => simp [innerJoin, tableIds]
  | cons x xs ih =>
    rw [innerJoin, List.flatMap_cons, tableIds, List.map_append]
    have hlen := filter_key_length_le_one h x.1
    rcases hfl : ys.filter fun y => decide (y.1 = x.1) with - | ⟨y, t⟩
    · simpa [hfl, tableIds] using (ih.cons x.1)
    · rw [hfl] at hlen
      have ht : t = [] := by
        rcases t with - | ⟨z, t2⟩
        · rfl
        · simp at hlen
      subst ht
      rw [hfl]
      simp only [List.map_map, List.map_cons, List.map_nil]
      exact List.cons_sublist_cons.mpr (by simpa [tableIds] using ih)

theorem tableIds_mergeDatasets_subset {α β γ : Type} {m : List (Nat × α)}
    {a : List (Nat × β)} {l : List (Nat × γ)} {k : Nat}
    (h : k ∈ tableIds (mergeDatasets m a l)) :
    k ∈ tableIds m ∧ k ∈ tableIds a ∧ k ∈ tableIds l := by
  rw [mergeDatasets] at h
  obtain ⟨h1, h3⟩ := mem_tableIds_innerJoin.mp h
  obtain ⟨h1a, h1b⟩ := mem_tableIds_innerJoin.mp h1
  exact ⟨h1a, h1b, h3⟩

theorem nodup_subset_length_le {l1 l2 : List Nat} (hnd : l1.Nodup) (hsub : l1 ⊆ l2) :
    l1.length ≤ l2.length :=
  (hnd.subperm hsub).length_le

/-- C3 (amended): for any three input tables the merged output contains
exactly the sample identifiers present in all three source tables (in
particular metadata ids [1,2,3], measurement ids [1,2], label ids [1,2,3]
yield merged ids [1,2]); and — provided each input table has pairwise
distinct identifiers, which the claim's unrestricted wording omits — the
output row count is at most the minimum of the three input row counts. -/
theorem merge_spec {α β γ : Type} (m : List (Nat × α)) (a : List (Nat × β))
    (l : List (Nat × γ)) :
    (∀ k : Nat, k ∈ tableIds (mergeDatasets m a l) ↔
        k ∈ tableIds m ∧ k ∈ tableIds a ∧ k ∈ tableIds l) ∧
    (tableIds (mergeDatasets [(1, 0), (2, 0), (3, 0)] [(1, 0), (2, 0)]
        [(1, 0), (2, 0), (3, 0)]) = [1, 2]) ∧
    ((tableIds m).Nodup → (tableIds a).Nodup → (tableIds l).Nodup →
      (mergeDatasets m a l).length ≤ min m.length (min a.length l.length)) := by
  refine ⟨?_, by decide, ?_⟩
  · intro k
    constructor
    · exact tableIds_mergeDatasets_subset
    · rintro ⟨h1, h2, h3⟩
      rw [mergeDatasets]
      exact mem_tableIds_innerJoin.mpr ⟨mem_tableIds_innerJoin.mpr ⟨h1, h2⟩, h3⟩
  · intro hm ha hl
    have s2 : (tableIds (mergeDatasets m a l)).Sublist (tableIds (innerJoin m a)) :=
      tableIds_innerJoin_sublist _ hl
    have s1 : (tableIds (innerJoin m a)).Sublist (tableIds m) :=
      tableIds_innerJoin_sublist _ ha
    have hnd : (tableIds (mergeDatasets m a l)).Nodup :=
      (s2.trans s1).nodup hm
    have hlen : (mergeDatasets m a l).length = (tableIds (mergeDatasets m a l)).length := by
      rw [tableIds, List.length_map]
    have hlm : (mergeDatasets m a l).length ≤ m.length := by
      rw [hlen]
      calc (tableIds (mergeDatasets m a l)).length
          ≤ (tableIds m).length := (s2.trans s1).length_le
        _ = m.length := by rw [tableIds, List.length_map]
    have hla : (mergeDatasets m a l).length ≤ a.length := by
      rw [hlen]
      have hsub : tableIds (mergeDatasets m a l) ⊆ tableIds a := fun k hk =>
        (tableIds_mergeDatasets_subset hk).2.1
      calc (tableIds (mergeDatasets m a l)).length
          ≤ (tableIds a).length := nodup_subset_length_le hnd hsub
        _ = a.length := by rw [tableIds, List.length_map]
    have hll : (mergeDatasets m a l).length ≤ l.length := by
      rw [hlen]
      have hsub : tableIds (mergeDatasets m a l) ⊆ tableIds l := fun k hk =>
        (tableIds_mergeDatasets_subset hk).2.2
      calc (tableIds (mergeDatasets m a l)).length
          ≤ (tableIds l).length := nodup_subset_length_le hnd hsub
        _ = l.length := by rw [tableIds, List.length_map]
    omega

/-- Witness for C3 (amended): the bound evaluated on the spec's concrete
example tables, whose identifiers are distinct within each table. -/
theorem merge_spec_witness :
    (mergeDatasets [(1, 0), (2, 0), (3, 0)] [(1, 0), (2, 0)]
        [(1, 0), (2, 0), (3, 0)]).length ≤
      min ([(1, 0), (2, 0), (3, 0)] : List (Nat × Nat)).length
        (min ([(1, 0), (2, 0)] : List (Nat × Nat)).length
          ([(1, 0), (2, 0), (3, 0)] : List (Nat × Nat)).length) :=
  (merge_spec [(1, 0), (2, 0), (3, 0)] [(1, 0), (2, 0)]
    [(1, 0), (2, 0), (3, 0)]).2.2 (by decide) (by decide) (by decide)

/-- C3 counterexample: with a duplicated identifier in the metadata table
the pandas inner merge multiplies matching rows, so the merged output has 2
rows while the smallest input has 1 row — the claimed bound
`output ≤ min of the three input row counts` is false for unrestricted
input tables. -/
theorem merge_min_bound_counterexample :
    ¬ ((mergeDatasets [(1, 0), (1, 0)] [(1, 0)] [(1, 0)]).length ≤
        min ([(1, 0), (1, 0)] : List (Nat × Nat)).length
          (min ([(1, 0)] : List (Nat × Nat)).length
            ([(1, 0)] : List (Nat × Nat)).length)) := by
  decide

/-! ### The Feature Encoder and `__getitem__` (source lines 315-404)

A merged dataframe row is modelled by `Row`; a field holds `none` when the
corresponding cell is absent (`row.get(field, default)` / `fillna`
territory).  The image tensor `(3, 224, 224)` of rationals stands for the
transformed image; the images directory together with PIL decoding and the
torchvision transform is modelled by `imageStore : Nat → Option ImageTensor`
(`none` = file missing for both extensions, or unreadable — the `except`
branch of source lines 351-357). -/

def ImageTensor : Type := Fin 3 → Fin 224 → Fin 224 → ℚ

/-- The black image `torch.zeros(3, 224, 224)` substituted on load failure. -/
def zeroImage : ImageTensor := fun _ _ _ => 0

structure Row where
  image_id : Nat
  age : Option ℚ
  gender : Option String
  bmi : Option ℚ
  ethnicity : Option String
  skin_tone : Option ℚ
  context : Option String
  cervico_mental_angle : Option ℚ
  submental_cervical_length : Option ℚ
  jaw_definition_index : Option ℚ
  neck_circumference : Option ℚ
  facial_adiposity_index : Option ℚ
  face_width : Option ℚ
  face_height : Option ℚ
  head_pose_pitch : Option ℚ
  head_pose_yaw : Option ℚ
  head_pose_roll : Option ℚ
  true_angle : Option ℚ
  true_category : Option String

/-- `gender_map` of `_encode_categorical` (source line 318). -/
def gender_map : String → Option ℚ
  | "male" => some 0
  | "female" => some 1
  | "other" => some (1 / 2)
  | _ => none

/-- `ethnicity_map` of `_encode_categorical` (source lines 322-327). -/
def ethnicity_map : String → Option ℚ
  | "african_american" => some 0
  | "asian" => some (1 / 8)
  | "caucasian" => some (1 / 4)
  | "hispanic" => some (3 / 8)
  | "middle_eastern" => some (1 / 2)
  | "native_american" => some (5 / 8)
  | "pacific_islander" => some (3 / 4)
  | "mixed" => some (7 / 8)
  | "other" => some (15 / 16)
  | "prefer_not_to_say" => some (1 / 2)
  | _ => none

/-- `context_map` of `_encode_categorical` (source line 331). -/
def context_map : String → Option ℚ
  | "baseline" => some 0
  | "progress" => some (1 / 2)
  | "followup" => some 1
  | _ => none

/-- `category_map` of `_encode_categorical` (source line 335). -/
def category_map : String → Option Nat
  | "low" => some 0
  | "moderate" => some 1
  | "high" => some 2
  | _ => none

/-- `self.data['gender_encoded']`: `.map(gender_map).fillna(0.5)`. -/
def gender_encoded (r : Row) : ℚ := (r.gender.bind gender_map).getD (1 / 2)

/-- `self.data['ethnicity_encoded']`: `.map(ethnicity_map).fillna(0.5)`. -/
def ethnicity_encoded (r : Row) : ℚ := (r.ethnicity.bind ethnicity_map).getD (1 / 2)

/-- `self.data['context_encoded']`: `.map(context_map).fillna(0.0)`. -/
def context_encoded (r : Row) : ℚ := (r.context.bind context_map).getD 0

/-- `self.data['category_encoded']`: `.map(category_map).fillna(1)`. -/
def category_encoded (r : Row) : Nat := (r.true_category.bind category_map).getD 1

/-- The 6-entry metadata feature vector of `__getitem__` (source lines
360-372): age scaled from [18,80], bmi from [15,40], skin tone from [1,6],
with the documented per-field fallback defaults. -/
def metadataFeatures (r : Row) : List ℚ :=
  [(r.age.getD 30 - 18) / 62,
   gender_encoded r,
   (r.bmi.getD 22 - 15) / 25,
   ethnicity_encoded r,
   (r.skin_tone.getD 3 - 1) / 5,
   context_encoded r]

/-- The 10-entry ARKit feature vector of `__getitem__` (source lines
374-398). -/
def arkitFeatures (r : Row) : List ℚ :=
  [(r.cervico_mental_angle.getD 100 - 70) / 80,
   (r.submental_cervical_length.getD 40 - 15) / 45,
   r.jaw_definition_index.getD (13 / 20),
   (r.neck_circumference.getD 380 - 300) / 200,
   (r.facial_adiposity_index.getD 35) / 100,
   (r.face_width.getD 145 - 120) / 60,
   (r.face_height.getD 210 - 180) / 70,
   (r.head_pose_pitch.getD 0) / 30,
   (r.head_pose_yaw.getD 0) / 30,
   (r.head_pose_roll.getD 0) / 30]

structure Item where
  image : ImageTensor
  metadata : List ℚ
  arkit : List ℚ
  angle_target : ℚ
  category_target : Nat

namespace FacialAnalysisDataset

/-- `__getitem__` (source lines 341-404): load the image (black image on
failure), compute the metadata/ARKit feature vectors and the two targets.
The `imageStore` collaborator returns the transformed tensor of a sample's
image when the file exists and decodes, and `none` otherwise. -/
def getItem (imageStore : Nat → Option ImageTensor) (r : Row) : Item :=
  { image := (imageStore r.image_id).getD zeroImage
    metadata := metadataFeatures r
    arkit := arkitFeatures r
    angle_target := r.true_angle.getD 100
    category_target := category_encoded r }

end FacialAnalysisDataset

/-- A row whose only populated cell is `age`; used to evaluate claims at
concrete inputs. -/
def rowWithAge (q : ℚ) : Row :=
  ⟨0, some q, none, none, none, none, none, none, none, none, none, none, none,
   none, none, none, none, none, none⟩

/-- C6: the age normalization of the Feature Encoder is a pure,
deterministic function of the row, and under the documented linear
[18,80] → [0,1] scaling `(age - 18) / 62.0` an input age of 18 encodes to
exactly 0 and an input age of 80 encodes to exactly 1 (the age entry is
the first component of the metadata feature vector). -/
theorem age_normalization_spec :
    (∀ r1 r2 : Row, r1 = r2 → metadataFeatures r1 = metadataFeatures r2) ∧
    (∀ r : Row, r.age = some 18 → (metadataFeatures r).getD 0 0 = 0) ∧
    (∀ r : Row, r.age = some 80 → (metadataFeatures r).getD 0 0 = 1) := by
  refine ⟨fun r1 r2 h => by rw [h], ?_, ?_⟩
  · intro r h
    simp [metadataFeatures, h]
  · intro r h
    simp [metadataFeatures, h]
    norm_num

/-- Witness for C6: a concrete row with age 18 encodes to 0. -/
theorem age_normalization_spec_witness :
    (metadataFeatures (rowWithAge 18)).getD 0 0 = 0 :=
  age_normalization_spec.2.1 (rowWithAge 18) rfl

/-- C9: for a dataset row whose image file is missing or unreadable,
`__getitem__` returns the zero image tensor of the declared (3,224,224)
shape in place of the image (instead of propagating the failure), and the
remaining returned fields — metadata vector, ARKit vector, angle target,
category target — do not depend on the image store at all, hence are
unchanged. -/
theorem missing_image_spec :
    (∀ (store : Nat → Option ImageTensor) (r : Row),
        store r.image_id = none →
        (FacialAnalysisDataset.getItem store r).image = zeroImage) ∧
    (∀ (s1 s2 : Nat → Option ImageTensor) (r : Row),
        (FacialAnalysisDataset.getItem s1 r).metadata
            = (FacialAnalysisDataset.getItem s2 r).metadata ∧
        (FacialAnalysisDataset.getItem s1 r).arkit
            = (FacialAnalysisDataset.getItem s2 r).arkit ∧
        (FacialAnalysisDataset.getItem s1 r).angle_target
            = (FacialAnalysisDataset.getItem s2 r).angle_target ∧
        (FacialAnalysisDataset.getItem s1 r).category_target
            = (FacialAnalysisDataset.getItem s2 r).category_target) := by
  constructor
  · intro store r h
    simp [FacialAnalysisDataset.getItem, h]
  · intro s1 s2 r
    exact ⟨rfl, rfl, rfl, rfl⟩

/-- Witness for C9: with an image store that has no images at all, the
returned image of a concrete row is the zero tensor. -/
theorem missing_image_spec_witness :
    (FacialAnalysisDataset.getItem (fun _ => none) (rowWithAge 18)).image = zeroImage :=
  missing_image_spec.1 (fun _ => none) (rowWithAge 18) rfl

/-! ### `load_data` and the early-return branch of `main`
(source lines 407-436 and 652-667)

The filesystem is modelled as the list of present file paths. -/

def metadataPath (dataDir : String) : String := dataDir ++ "/metadata.csv"

def arkitPath (dataDir : String) : String := dataDir ++ "/arkit_features.csv"

def labelsPath (dataDir : String) : String := dataDir ++ "/labels.csv"

/-- `load_data` (source lines 407-436) restricted to its control flow: a
missing required CSV raises `FileNotFoundError` (modelled as `.error`)
with a message naming the missing file, checked in source order. -/
def load_data (files : List String) (dataDir : String) : Except String Unit :=
  if metadataPath dataDir ∉ files then
    .error ("Metadata CSV not found: " ++ metadataPath dataDir)
  else if arkitPath dataDir ∉ files then
    .error ("ARKit features CSV not found: " ++ arkitPath dataDir)
  else if labelsPath dataDir ∉ files then
    .error ("Labels CSV not found: " ++ labelsPath dataDir)
  else
    .ok ()

inductive MainOutcome : Type
  | abortedEarly (messages : List String) (filesWritten : List String)
  | proceeded
deriving DecidableEq

/-- The data-loading step of `main` (source lines 655-667): a
`FileNotFoundError` from `load_data` is caught (not propagated to the
process), `main` prints the error plus a fixed block listing the expected
input files and returns.  Up to that `return` no output file has been
written (`os.makedirs` on line 653 creates the output directory but writes
no file), which the `filesWritten` component records.  When loading
succeeds the run continues past this modelled slice. -/
def mainLoadStep (files : List String) (dataDir : String) : MainOutcome :=
  match load_data files dataDir with
  | .error e =>
      .abortedEarly
        ["Error: " ++ e,
         "Please ensure your data directory contains:",
         "  - images/ folder with PNG/JPEG images",
         "  - metadata.csv",
         "  - arkit_features.csv",
         "  - labels.csv",
         "See DATA_PREPARATION.md for data format details."]
        []
  | .ok _ => .proceeded

/-- C8: if any of the three required CSVs is absent from the data
directory, `load_data` fails with an error and `main` aborts the run via a
caught, non-fatal-to-process early return whose printed messages include
the reported error and list every expected file, and no output file has
been written at that point. -/
theorem missing_csv_abort_spec (files : List String) (dataDir : String)
    (h : metadataPath dataDir ∉ files ∨ arkitPath dataDir ∉ files ∨
      labelsPath dataDir ∉ files) :
    ∃ e msgs,
      load_data files dataDir = .error e ∧
      mainLoadStep files dataDir = .abortedEarly msgs [] ∧
      ("Error: " ++ e) ∈ msgs ∧
      "  - metadata.csv" ∈ msgs ∧
      "  - arkit_features.csv" ∈ msgs ∧
      "  - labels.csv" ∈ msgs := by
  rw [mainLoadStep, load_data]
  by_cases h1 : metadataPath dataDir ∉ files
  · rw [if_pos h1]
    exact ⟨_, _, rfl, rfl, by simp, by simp, by simp, by simp⟩
  · rw [if_neg h1]
    by_cases h2 : arkitPath dataDir ∉ files
    · rw [if_pos h2]
      exact ⟨_, _, rfl, rfl, by simp, by simp, by simp, by simp⟩
    · rw [if_neg h2]
      by_cases h3 : labelsPath dataDir ∉ files
      · rw [if_pos h3]
        exact ⟨_, _, rfl, rfl, by simp, by simp, by simp, by simp⟩
      · exact absurd h (by simp [not_or] at h1 h2 h3 ⊢; exact ⟨h1, h2, h3⟩)

/-- Witness for C8: with an empty filesystem every required CSV is absent
and the run aborts with the descriptive message block and no files
written. -/
theorem missing_csv_abort_spec_witness :
    ∃ e msgs,
      load_data [] "data" = .error e ∧
      mainLoadStep [] "data" = .abortedEarly msgs [] ∧
      ("Error: " ++ e) ∈ msgs ∧
      "  - metadata.csv" ∈ msgs ∧
      "  - arkit_features.csv" ∈ msgs ∧
      "  - labels.csv" ∈ msgs :=
  missing_csv_abort_spec [] "data" (Or.inl (List.not_mem_nil _))

/-! ### The Trainer (source lines 443-572)

What the epoch loops of `train_model` read from one batch is its scalar
total-loss contribution `total_loss.item()`, the per-sample absolute angle
errors, the number of correct category predictions and the batch's sample
count; the numeric behaviour of the model, the losses and the optimizer is
the ML framework's (an external collaborator), so every claim below is
proved for arbitrary per-batch outcomes.  `f e` gives the train/validation
batch outcomes of epoch `e`. -/

structure BatchStats where
  loss : ℚ
  angleErrors : List ℚ
  correct : Nat
  total : Nat
deriving DecidableEq

/-- Python division: raises `ZeroDivisionError` on a zero denominator. -/
def pyDiv (a b : ℚ) : Except String ℚ :=
  if b = 0 then .error "ZeroDivisionError" else .ok (a / b)

/-- `np.mean`; on an empty list numpy yields `nan` (not an exception),
abstracted here as 0 — no claim evaluates the mean of an empty list. -/
def npMean (l : List ℚ) : ℚ := l.sum / l.length

/-- `train_loss` / `val_loss` accumulation: `loss += total_loss.item()`. -/
def batchLossSum (bs : List BatchStats) : ℚ := (bs.map BatchStats.loss).sum

def batchCorrect (bs : List BatchStats) : Nat := (bs.map BatchStats.correct).sum

def batchSamples (bs : List BatchStats) : Nat := (bs.map BatchStats.total).sum

def batchErrors (bs : List BatchStats) : List ℚ := (bs.map BatchStats.angleErrors).flatten

structure EpochRecord where
  train_loss : ℚ
  val_loss : ℚ
  train_angle_mae : ℚ
  val_angle_mae : ℚ
  train_category_acc : ℚ
  val_category_acc : ℚ
deriving DecidableEq

/-- The `history` dictionary (source lines 467-474): six per-metric
arrays. -/
structure History where
  train_loss : List ℚ
  val_loss : List ℚ
  train_angle_mae : List ℚ
  val_angle_mae : List ℚ
  train_category_acc : List ℚ
  val_category_acc : List ℚ
deriving DecidableEq

def History.empty : History := ⟨[], [], [], [], [], []⟩

/-- The six `history[...].append(...)` calls of one epoch (source lines
553-559). -/
def History.append1 (h : History) (r : EpochRecord) : History :=
  ⟨h.train_loss ++ [r.train_loss], h.val_loss ++ [r.val_loss],
   h.train_angle_mae ++ [r.train_angle_mae], h.val_angle_mae ++ [r.val_angle_mae],
   h.train_category_acc ++ [r.train_category_acc],
   h.val_category_acc ++ [r.val_category_acc]⟩

/-- The epoch-end metric computation (source lines 553-559) in source
order: train loss averaged over the train batch count, validation loss
over the validation batch count, the two angle-MAE means, train accuracy
over the train sample count, validation accuracy over the validation
sample count.  All four divisions are unguarded Python divisions. -/
def runEpoch (tb vb : List BatchStats) : Except String EpochRecord :=
  match pyDiv (batchLossSum tb) tb.length with
  | .error s => .error s
  | .ok tl =>
    match pyDiv (batchLossSum vb) vb.length with
    | .error s => .error s
    | .ok vl =>
      match pyDiv (batchCorrect tb) (batchSamples tb) with
      | .error s => .error s
      | .ok tacc =>
        match pyDiv (batchCorrect vb) (batchSamples vb) with
        | .error s => .error s
        | .ok vacc =>
          .ok ⟨tl, vl, npMean (batchErrors tb), npMean (batchErrors vb), tacc, vacc⟩

/-- `val_loss < best_val_loss` (source line 567); `none` models the
initial `best_val_loss = float('inf')` (source line 476). -/
def stepBest (best : Option ℚ) (vl : ℚ) : Bool :=
  match best with
  | none => true
  | some b => decide (vl < b)

/-- The epoch loop of `train_model` (source lines 478-571): `e` is the
current epoch index, the next argument the number of remaining epochs,
`best` is `best_val_loss` and `w` counts the checkpoint writes
(`torch.save` calls) performed so far.  After the epoch's record is
appended the checkpoint is overwritten iff the accumulated (undivided)
total validation loss is strictly below `best_val_loss`
(source lines 566-570). -/
def trainLoop (f : Nat → List BatchStats × List BatchStats) :
    Nat → Nat → History → Option ℚ → Nat → Except String (History × Nat)
  | _, 0, h, _, w => .ok (h, w)
  | e, n + 1, h, best, w =>
    match runEpoch (f e).1 (f e).2 with
    | .error s => .error s
    | .ok r =>
      if stepBest best (batchLossSum (f e).2) then
        trainLoop f (e + 1) n (h.append1 r) (some (batchLossSum (f e).2)) (w + 1)
      else
        trainLoop f (e + 1) n (h.append1 r) best w

/-- `train_model` (source lines 443-572): run `num_epochs` epochs starting
from the empty history, `best_val_loss = inf` and no checkpoint written. -/
def train_model (f : Nat → List BatchStats × List BatchStats) (num_epochs : Nat) :
    Except String (History × Nat) :=
  trainLoop f 0 num_epochs History.empty none 0

/-- The checkpoint-overwrite decisions of a run in isolation: given
`best_val_loss` so far (`none` = infinity) and the remaining epochs' total
validation losses, the boolean per epoch saying whether that epoch
overwrites the best checkpoint. -/
def checkpointFlags : Option ℚ → List ℚ → List Bool
  | _, [] => []
  | best, l :: ls =>
    if stepBest best l then true :: checkpointFlags (some l) ls
    else false :: checkpointFlags best ls

theorem checkpointFlags_some_getD (ls : List ℚ) :
    ∀ (b : ℚ) (k : Nat), k < ls.length →
      ((checkpointFlags (some b) ls).getD k false = true ↔
        (ls.getD k 0 < b ∧ ∀ j, j < k → ls.getD k 0 < ls.getD j 0)) := by
  induction ls with
  | nil => intro b k hk; simp at hk
  | cons l ls ih =>
    intro b k hk
    rw [checkpointFlags]
    by_cases hl : l < b
    · rw [if_pos (by simp [stepBest, hl])]
      cases k with
      | zero => simpa using hl
      | succ k =>
        simp only [List.getD_cons_succ]
        rw [ih l k (by simpa using hk)]
        constructor
        · rintro ⟨h1, h2⟩
          refine ⟨lt_trans h1 hl, ?_⟩
          intro j hj
          cases j with
          | zero => simpa using h1
          | succ j => exact h2 j (by omega)
        · rintro ⟨h1, h2⟩
          exact ⟨by simpa using h2 0 (by omega), fun j hj => h2 (j + 1) (by omega)⟩
    · rw [if_neg (by simp [stepBest, hl])]
      cases k with
      | zero => simpa using hl
      | succ k =>
        simp only [List.getD_cons_succ]
        rw [ih b k (by simpa using hk)]
        constructor
        · rintro ⟨h1, h2⟩
          refine ⟨h1, ?_⟩
          intro j hj
          cases j with
          | zero => simpa using lt_of_lt_of_le h1 (le_of_not_lt hl)
          | succ j => exact h2 j (by omega)
        · rintro ⟨h1, h2⟩
          exact ⟨h1, fun j hj => h2 (j + 1) (by omega)⟩

theorem checkpointFlags_none_getD (ls : List ℚ) (k : Nat) (hk : k < ls.length) :
    ((checkpointFlags none ls).getD k false = true ↔
      ∀ j, j < k → ls.getD k 0 < ls.getD j 0) := by
  cases ls with
  | nil => simp at hk
  | cons l ls =>
    rw [checkpointFlags, if_pos (show stepBest none l = true from rfl)]
    cases k with
    | zero => simp
    | succ k =>
      simp only [List.getD_cons_succ]
      rw [checkpointFlags_some_getD ls l k (by simpa using hk)]
      constructor
      · rintro ⟨h1, h2⟩ j hj
        cases j with
        | zero => simpa using h1
        | succ j => exact h2 j (by omega)
      · intro h
        exact ⟨by simpa using h 0 (by omega), fun j hj => h (j + 1) (by omega)⟩

theorem range_map_shift {α : Type} (g : Nat → α) (e n : Nat) :
    (List.range (n + 1)).map (fun i => g (e + i))
      = g e :: ((List.range n).map fun i => g (e + 1 + i)) := by
  rw [List.range_succ_eq_map, List.map_cons, List.map_map]
  congr 1
  apply List.map_congr_left
  intro i _
  simp only [Function.comp_apply]
  congr 1
  omega

theorem trainLoop_writes (f : Nat → List BatchStats × List BatchStats) :
    ∀ (n e : Nat) (h : History) (best : Option ℚ) (w : Nat) (h2 : History) (w2 : Nat),
      trainLoop f e n h best w = .ok (h2, w2) →
      w2 = w + (checkpointFlags best
        ((List.range n).map fun i => batchLossSum (f (e + i)).2)).count true := by
  intro n
  induction n with
  | zero =>
    intro e h best w h2 w2 heq
    rw [trainLoop] at heq
    cases heq
    simp [checkpointFlags]
  | succ n ih =>
    intro e h best w h2 w2 heq
    rw [trainLoop] at heq
    rw [range_map_shift (fun j => batchLossSum (f j).2) e n]
    cases hre : runEpoch (f e).1 (f e).2 with
    | error s =>
      rw [hre] at heq
      exact Except.noConfusion heq
    | ok r =>
      simp only [hre] at heq
      rw [checkpointFlags]
      by_cases hw : stepBest best (batchLossSum (f e).2) = true
      · rw [if_pos hw] at heq
        rw [if_pos hw]
        rw [ih (e + 1) (h.append1 r) (some (batchLossSum (f e).2)) (w + 1) h2 w2 heq]
        simp [List.count_cons]
        omega
      · rw [if_neg hw] at heq
        rw [if_neg hw]
        rw [ih (e + 1) (h.append1 r) best w h2 w2 heq]
        simp [List.count_cons]

theorem trainLoop_lengths (f : Nat → List BatchStats × List BatchStats) :
    ∀ (n e : Nat) (h : History) (best : Option ℚ) (w : Nat) (h2 : History) (w2 : Nat),
      trainLoop f e n h best w = .ok (h2, w2) →
      h2.train_loss.length = h.train_loss.length + n ∧
      h2.val_loss.length = h.val_loss.length + n ∧
      h2.train_angle_mae.length = h.train_angle_mae.length + n ∧
      h2.val_angle_mae.length = h.val_angle_mae.length + n ∧
      h2.train_category_acc.length = h.train_category_acc.length + n ∧
      h2.val_category_acc.length = h.val_category_acc.length + n := by
  intro n
  induction n with
  | zero =>
    intro e h best w h2 w2 heq
    rw [trainLoop] at heq
    cases heq
    simp
  | succ n ih =>
    intro e h best w h2 w2 heq
    rw [trainLoop] at heq
    cases hre : runEpoch (f e).1 (f e).2 with
    | error s =>
      rw [hre] at heq
      exact Except.noConfusion heq
    | ok r =>
      simp only [hre] at heq
      by_cases hw : stepBest best (batchLossSum (f e).2) = true
      · rw [if_pos hw] at heq
        have := ih (e + 1) (h.append1 r) _ _ h2 w2 heq
        simp only [History.append1, List.length_append, List.length_cons,
          List.length_nil] at this
        omega
      · rw [if_neg hw] at heq
        have := ih (e + 1) (h.append1 r) _ _ h2 w2 heq
        simp only [History.append1, List.length_append, List.length_cons,
          List.length_nil] at this
        omega

/-- C7: after a run configured with `N` epochs completes, every per-metric
array of the training history has length exactly `N` — one record was
appended per completed epoch, with no early stopping regardless of metric
plateaus (the epoch loop is a fixed `range`). -/
theorem history_length_spec (f : Nat → List BatchStats × List BatchStats)
    (N : Nat) (h : History) (w : Nat) (heq : train_model f N = .ok (h, w)) :
    h.train_loss.length = N ∧ h.val_loss.length = N ∧
    h.train_angle_mae.length = N ∧ h.val_angle_mae.length = N ∧
    h.train_category_acc.length = N ∧ h.val_category_acc.length = N := by
  have := trainLoop_lengths f N 0 History.empty none 0 h w heq
  simpa [History.empty] using this

/-- Witness for C7: a concrete 2-epoch run with one train and one
validation batch per epoch completes with all six history arrays of
length 2. -/
theorem history_length_spec_witness :
    (⟨[1, 1], [1, 1], [1, 1], [1, 1], [1, 1], [1, 1]⟩ : History).train_loss.length = 2 ∧
    (⟨[1, 1], [1, 1], [1, 1], [1, 1], [1, 1], [1, 1]⟩ : History).val_loss.length = 2 ∧
    (⟨[1, 1], [1, 1], [1, 1], [1, 1], [1, 1], [1, 1]⟩ : History).train_angle_mae.length = 2 ∧
    (⟨[1, 1], [1, 1], [1, 1], [1, 1], [1, 1], [1, 1]⟩ : History).val_angle_mae.length = 2 ∧
    (⟨[1, 1], [1, 1], [1, 1], [1, 1], [1, 1], [1, 1]⟩ : History).train_category_acc.length = 2 ∧
    (⟨[1, 1], [1, 1], [1, 1], [1, 1], [1, 1], [1, 1]⟩ : History).val_category_acc.length = 2 :=
  history_length_spec (fun _ => ([⟨1, [1], 1, 1⟩], [⟨1, [1], 1, 1⟩])) 2
    ⟨[1, 1], [1, 1], [1, 1], [1, 1], [1, 1], [1, 1]⟩ 1
    (by norm_num [train_model, trainLoop, runEpoch, pyDiv, npMean, batchLossSum,
      batchCorrect, batchSamples, batchErrors, stepBest, History.append1, History.empty])

/-- C2: the best-model checkpoint is overwritten exactly at those epochs
whose total (accumulated, undivided) validation loss is strictly less than
every previous epoch's total: a completed run performs as many checkpoint
writes as there are such epochs, the per-epoch overwrite flag at position
`k` is true iff epoch `k`'s total validation loss is strictly below all
previous totals, and for the validation-loss sequence [5.0, 4.0, 4.5, 3.0]
the flags are [true, true, false, true] — exactly 3 writes, after epochs
1, 2 and 4. -/
theorem checkpoint_spec :
    (∀ (f : Nat → List BatchStats × List BatchStats) (N : Nat) (h : History) (w : Nat),
        train_model f N = .ok (h, w) →
        w = (checkpointFlags none
              ((List.range N).map fun e => batchLossSum (f e).2)).count true) ∧
    (∀ (losses : List ℚ) (k : Nat), k < losses.length →
        ((checkpointFlags none losses).getD k false = true ↔
          ∀ j, j < k → losses.getD k 0 < losses.getD j 0)) ∧
    (checkpointFlags none [5, 4, 4.5, 3] = [true, true, false, true] ∧
      (checkpointFlags none [5, 4, 4.5, 3]).count true = 3) := by
  refine ⟨?_, checkpointFlags_none_getD,
    by constructor <;> norm_num [checkpointFlags, stepBest, List.count_cons]⟩
  intro f N h w heq
  have := trainLoop_writes f N 0 History.empty none 0 h w heq
  simpa using this

/-- Witness for C2: on the run of `history_length_spec_witness`'s shape
(constant validation losses), only the first epoch writes a checkpoint,
matching the flag count; the flag characterization is evaluated at the
concrete loss list [5, 4] and position 1. -/
theorem checkpoint_spec_witness :
    (checkpointFlags none [(5 : ℚ), 4]).getD 1 false = true ↔
      ∀ j, j < 1 → ([(5 : ℚ), 4]).getD 1 0 < ([(5 : ℚ), 4]).getD j 0 :=
  checkpoint_spec.2.1 [5, 4] 1 (by decide)

/-- C10: the epoch-end averaging of `train_model` is only well-defined for
a non-empty validation set — it divides the accumulated validation loss by
the number of validation batches and the correct count by the number of
validation samples with no guard.  Whenever every demographic group of the
input has fewer than 2 members, the splitter returns an empty validation
index list (all rows go to training), and running `train_model` with the
resulting empty validation loader (and a non-empty training loader)
raises `ZeroDivisionError` during the first epoch's metric averaging, for
any epoch count ≥ 1. -/
theorem empty_validation_spec (K : Type) [DecidableEq K] :
    (∀ (data : List (Option K)) (t : ℚ),
        (∀ κ : K, (groupIndices data κ).length < 2) →
        (stratified_train_test_split data t).2 = []) ∧
    (∀ (f : Nat → List BatchStats × List BatchStats) (N : Nat),
        1 ≤ N → (f 0).1 ≠ [] → (f 0).2 = [] →
        train_model f N = .error "ZeroDivisionError") := by
  constructor
  · intro data t hall
    rw [stratified_snd, List.flatten_eq_nil_iff]
    intro l hl
    obtain ⟨κ, hκ, rfl⟩ := List.mem_map.mp hl
    rw [groupSplit, if_pos (hall κ)]
  · intro f N hN htb hvb
    obtain ⟨n, rfl⟩ : ∃ n, N = n + 1 := ⟨N - 1, by omega⟩
    have hre : runEpoch (f 0).1 (f 0).2 = .error "ZeroDivisionError" := by
      have htlen : ((f 0).1.length : ℚ) ≠ 0 := by
        simp only [ne_eq, Nat.cast_eq_zero, List.length_eq_zero]
        exact htb
      rw [runEpoch, hvb]
      simp [pyDiv, htlen]
    rw [train_model, trainLoop, hre]


/-- Witness for C10: the singleton-key dataframe `[()]` has only groups of
size < 2, its validation index list is empty, and a 1-epoch run with one
(empty-loss) training batch and no validation batches fails with
`ZeroDivisionError`. -/
theorem empty_validation_spec_witness :
    (stratified_train_test_split [some ()] (1 / 5)).2 = [] ∧
    train_model (fun _ => ([⟨0, [], 0, 0⟩], [])) 1 = .error "ZeroDivisionError" :=
  ⟨(empty_validation_spec Unit).1 [some ()] (1 / 5) (by decide),
   (empty_validation_spec Unit).2 (fun _ => ([⟨0, [], 0, 0⟩], [])) 1 (by decide)
     (by decide) rfl⟩

end Foga
